import Mathlib

/-!
# Verification of the decorate_3D_portal core pipeline

A shallow embedding, over exact rational arithmetic, of the numerical and
state-machine core of the repository:

* `OffAxisCamera` (off-axis asymmetric-frustum camera, `utils/offAxisCamera`),
* `HeadPoseTracker` and `headPoseToWorldPosition` (`utils/headPose`),
* `VideoTextureManager.processFrame` (`utils/videoTextureManager.ts`),
* the auto-reconnecting WebSocket hook (`useWebSocket`).

JavaScript numbers are modelled as `ℚ`; platform primitives that are not
part of the repository (IEEE-754 `Math.sqrt`, `performance.now()`, the
`DataView.getFloat64` bit decoding, and the asynchronous
`createImageBitmap` decoder) are passed in as explicit parameters, so every
theorem quantifies over their behaviour.
-/

namespace Portal

/-- `axisStrength` record inside `PerspectiveSettings`. -/
structure AxisStrength where
  x : ℚ
  y : ℚ
  z : ℚ
deriving DecidableEq, Repr

/-- `PerspectiveSettings` from `types` (fields used by the camera). -/
structure PerspectiveSettings where
  nearPlane : ℚ
  farPlane : ℚ
  movementScale : ℚ
  smoothingFactor : ℚ
  axisStrength : AxisStrength
deriving DecidableEq, Repr

/-- `DEFAULT_SETTINGS` of the off-axis camera module. -/
def DEFAULT_SETTINGS : PerspectiveSettings :=
  { nearPlane := 1/100
    farPlane := 10
    movementScale := 3/2
    smoothingFactor := 3/10
    axisStrength := ⟨1, 1, 1⟩ }

/-- `HeadPose`: normalized face-centre position, depth proxy, inter-ocular
distance and timestamp. -/
structure HeadPose where
  x : ℚ
  y : ℚ
  z : ℚ
  interOcularPx : ℚ
  timestamp : ℚ
deriving DecidableEq, Repr

/-- `SmoothedHeadPose = HeadPose & { worldX, worldY, worldZ }`. -/
structure SmoothedHeadPose where
  x : ℚ
  y : ℚ
  z : ℚ
  interOcularPx : ℚ
  timestamp : ℚ
  worldX : ℚ
  worldY : ℚ
  worldZ : ℚ
deriving DecidableEq, Repr

/-- `CalibrationData` from `types`. -/
structure CalibrationData where
  screenWidthCm : ℚ
  screenHeightCm : ℚ
  viewingDistanceCm : ℚ
  pixelsPerCm : ℚ
  referenceInterOcularPx : ℚ
  realInterOcularCm : ℚ
deriving DecidableEq, Repr

/-- `DEFAULT_CALIBRATION` from `utils/calibration`. -/
def DEFAULT_CALIBRATION : CalibrationData :=
  { screenWidthCm := 34
    screenHeightCm := 19
    viewingDistanceCm := 60
    pixelsPerCm := 0
    referenceInterOcularPx := 1/10
    realInterOcularCm := 63/10 }

/-- `headPoseToWorldPosition` (`utils/headPose`): pure conversion of a
normalized pose to world-space centimetres, origin at screen centre. -/
def headPoseToWorldPosition (pose : HeadPose)
    (screenWidthCm screenHeightCm baseDistanceCm : ℚ) : ℚ × ℚ × ℚ :=
  (-(pose.x - 1/2) * screenWidthCm,
   -(pose.y - 1/2) * screenHeightCm,
   baseDistanceCm / pose.z)

/-- The asymmetric frustum parameters handed to
`projectionMatrix.makePerspective(left, right, bottom, top, near, far)`. -/
structure Frustum where
  left : ℚ
  right : ℚ
  bottom : ℚ
  top : ℚ
deriving DecidableEq, Repr

/-- State of an `OffAxisCamera` instance: screen dimensions in world units,
current head position, settings, and the camera's current frustum and
position (the observable output of `updateProjectionMatrix`). -/
structure OffAxisCamera where
  settings : PerspectiveSettings
  screenWidth : ℚ
  screenHeight : ℚ
  headX : ℚ
  headY : ℚ
  headZ : ℚ
  frustum : Frustum
  posX : ℚ
  posY : ℚ
  posZ : ℚ
deriving DecidableEq, Repr

/-- `OffAxisCamera.updateProjectionMatrix`: recompute the asymmetric frustum
from the stored head offset and apply it, then move the camera to the head
position. -/
def OffAxisCamera.updateProjectionMatrix (c : OffAxisCamera) : OffAxisCamera :=
  let halfW := c.screenWidth / 2
  let halfH := c.screenHeight / 2
  let near := c.settings.nearPlane
  let dist := c.headZ
  let nearOverDist := near / dist
  let left := (-halfW - c.headX) * nearOverDist
  let right := (halfW - c.headX) * nearOverDist
  let bottom := (-halfH - c.headY) * nearOverDist
  let top := (halfH - c.headY) * nearOverDist
  { c with
    frustum := ⟨left, right, bottom, top⟩
    posX := c.headX
    posY := c.headY
    posZ := dist }

/-- `OffAxisCamera.updateFromHeadPose`: convert the pose's world centimetres
to metres, apply `movementScale` and per-axis strength (the distance axis
applies only the axis strength), clamp the distance to a 0.1 floor, then
recompute the frustum. -/
def OffAxisCamera.updateFromHeadPose (c : OffAxisCamera)
    (pose : SmoothedHeadPose) : OffAxisCamera :=
  let c' := { c with
    headX := pose.worldX / 100 * c.settings.movementScale * c.settings.axisStrength.x
    headY := pose.worldY / 100 * c.settings.movementScale * c.settings.axisStrength.y
    headZ := max (1/10) (pose.worldZ / 100 * c.settings.axisStrength.z) }
  c'.updateProjectionMatrix

/-- `OffAxisCamera.setHeadPosition`: set the head position directly (metres),
clamping the distance to the 0.1 floor, and recompute the frustum. -/
def OffAxisCamera.setHeadPosition (c : OffAxisCamera) (x y z : ℚ) : OffAxisCamera :=
  ({ c with headX := x, headY := y, headZ := max (1/10) z }).updateProjectionMatrix

/-- A single MediaPipe face landmark: normalized `{x, y, z}`. -/
structure Landmark where
  x : ℚ
  y : ℚ
  z : ℚ
deriving DecidableEq, Repr

/-- `HeadPoseConfig` (`utils/headPose`): smoothing factor and clamp ranges. -/
structure HeadPoseConfig where
  smoothingFactor : ℚ
  clampX : ℚ × ℚ
  clampY : ℚ × ℚ
  clampZ : ℚ × ℚ
deriving DecidableEq, Repr

/-- `DEFAULT_CONFIG` of the head-pose tracker. -/
def DEFAULT_CONFIG : HeadPoseConfig :=
  { smoothingFactor := 3/10
    clampX := (0, 1)
    clampY := (0, 1)
    clampZ := (3/10, 3) }

/-- `clamp(val, min, max) = Math.max(min, Math.min(max, val))`. -/
def clamp (val lo hi : ℚ) : ℚ := max lo (min hi val)

/-- `ema(current, previous, alpha) = alpha * current + (1 - alpha) * previous`. -/
def ema (current previous alpha : ℚ) : ℚ :=
  alpha * current + (1 - alpha) * previous

/-- `HeadPoseTracker` instance state: config and the previous smoothed pose. -/
structure HeadPoseTracker where
  config : HeadPoseConfig
  previousPose : Option HeadPose
deriving DecidableEq, Repr

/-- `HeadPoseTracker.reset`: discard the previous smoothed sample. -/
def HeadPoseTracker.reset (t : HeadPoseTracker) : HeadPoseTracker :=
  { t with previousPose := none }

/-- Lines 310–348 of `HeadPoseTracker.update`: the raw clamped sample
derived from one landmark frame. `sqrtFn` models the platform `Math.sqrt`
and `now` models `performance.now()`. Landmark reads use `getD`, which under
the ≥ 468 length guard coincides with the source's direct array indexing. -/
def rawSample (sqrtFn : ℚ → ℚ) (now : ℚ) (cfg : HeadPoseConfig)
    (landmarks : List Landmark) : HeadPose :=
  let leftEyeInner := landmarks.getD 133 ⟨0, 0, 0⟩
  let rightEyeInner := landmarks.getD 362 ⟨0, 0, 0⟩
  let noseTip := landmarks.getD 1 ⟨0, 0, 0⟩
  let leftEyeOuter := landmarks.getD 33 ⟨0, 0, 0⟩
  let rightEyeOuter := landmarks.getD 263 ⟨0, 0, 0⟩
  let rawX := (leftEyeInner.x + rightEyeInner.x + noseTip.x) / 3
  let rawY := (leftEyeInner.y + rightEyeInner.y + noseTip.y) / 3
  let interOcularPx := sqrtFn ((rightEyeInner.x - leftEyeInner.x) ^ 2 +
    (rightEyeInner.y - leftEyeInner.y) ^ 2)
  let eyeWidth := sqrtFn ((rightEyeOuter.x - leftEyeOuter.x) ^ 2 +
    (rightEyeOuter.y - leftEyeOuter.y) ^ 2)
  let rawZ := (interOcularPx + eyeWidth * (1/2)) / (15/100)
  { x := clamp rawX cfg.clampX.1 cfg.clampX.2
    y := clamp rawY cfg.clampY.1 cfg.clampY.2
    z := clamp rawZ cfg.clampZ.1 cfg.clampZ.2
    interOcularPx := interOcularPx
    timestamp := now }

/-- The `return { ...smoothed, worldX, worldY, worldZ }` tail of
`HeadPoseTracker.update`: extend a smoothed pose with its world conversion
under the given calibration. -/
def withWorld (p : HeadPose) (cal : CalibrationData) : SmoothedHeadPose :=
  let world := headPoseToWorldPosition p cal.screenWidthCm cal.screenHeightCm
    cal.viewingDistanceCm
  { x := p.x
    y := p.y
    z := p.z
    interOcularPx := p.interOcularPx
    timestamp := p.timestamp
    worldX := world.1
    worldY := world.2.1
    worldZ := world.2.2 }

/-- `HeadPoseTracker.update(landmarks)`: returns the new smoothed pose (or
`none` when the input is absent or has fewer than 468 points) together with
the updated tracker state. The nullable JavaScript array is modelled as
`Option (List Landmark)`; `cal` is the calibration snapshot read through
`calibrationManager.getCalibration()`. -/
def HeadPoseTracker.update (sqrtFn : ℚ → ℚ) (now : ℚ) (cal : CalibrationData)
    (t : HeadPoseTracker) (landmarks : Option (List Landmark)) :
    Option SmoothedHeadPose × HeadPoseTracker :=
  match landmarks with
  | none => (none, t)
  | some lms =>
    if lms.length < 468 then (none, t)
    else
      let rawPose := rawSample sqrtFn now t.config lms
      let alpha := t.config.smoothingFactor
      let smoothed : HeadPose :=
        match t.previousPose with
        | some prev =>
          { x := ema rawPose.x prev.x alpha
            y := ema rawPose.y prev.y alpha
            z := ema rawPose.z prev.z alpha
            interOcularPx := ema rawPose.interOcularPx prev.interOcularPx alpha
            timestamp := now }
        | none => rawPose
      (some (withWorld smoothed cal), { t with previousPose := some smoothed })

/-- `HEADER_SIZE` of the binary frame wire format. -/
def HEADER_SIZE : ℕ := 21

/-- `DataView.getUint8`: single byte at an offset (bytes as `List ℕ`). -/
def getUint8 (data : List ℕ) (i : ℕ) : ℕ := data.getD i 0

/-- `DataView.getUint32(offset, littleEndian)`. -/
def getUint32le (data : List ℕ) (i : ℕ) : ℕ :=
  data.getD i 0 + 256 * data.getD (i + 1) 0 +
    256 ^ 2 * data.getD (i + 2) 0 + 256 ^ 3 * data.getD (i + 3) 0

/-- The timestamp field: `view.getFloat64(1, true)`. `f64` models the
platform's IEEE-754 decoding of the 8 timestamp bytes. -/
def frameTimestamp (f64 : List ℕ → ℚ) (data : List ℕ) : ℚ :=
  f64 ((data.drop 1).take 8)

/-- The `texture.image` of a texture entry: the initial placeholder canvas
or a decoded bitmap, identified by its JPEG bytes. -/
inductive TextureImage where
  | placeholder
  | bitmap (jpeg : List ℕ)
deriving DecidableEq, Repr

/-- One entry of `VideoTextureManager.textures` (single source id). -/
structure TextureEntry where
  image : TextureImage
  lastTimestamp : ℚ
  frameCount : ℕ
  processing : Bool
  currentWidth : ℕ
  currentHeight : ℕ
  lastBitmap : Option (List ℕ)
deriving DecidableEq, Repr

/-- The entry installed by `getTexture` on first reference to a source. -/
def freshEntry : TextureEntry :=
  { image := .placeholder
    lastTimestamp := 0
    frameCount := 0
    processing := false
    currentWidth := 64
    currentHeight := 64
    lastBitmap := none }

/-- An in-flight `createImageBitmap` decode: the header fields and JPEG
payload of the frame being decoded. -/
structure PendingDecode where
  timestamp : ℚ
  width : ℕ
  height : ℕ
  jpegData : List ℕ
deriving DecidableEq, Repr

/-- State of one source inside the manager: its map entry (if created) and
the decode currently awaited (if any). -/
structure SourceState where
  entry : Option TextureEntry
  pending : Option PendingDecode
deriving DecidableEq, Repr

/-- A source before any frame or `getTexture` call. -/
def initialSource : SourceState := ⟨none, none⟩

/-- Outcome of the synchronous prefix of `processFrame`. -/
inductive StartOutcome where
  | rejected
  | started (p : PendingDecode)
deriving DecidableEq, Repr

/-- The synchronous prefix of `VideoTextureManager.processFrame`, up to the
`await createImageBitmap`: header validation, entry creation, stale-frame
drop, backpressure drop, and — when all checks pass — setting the busy flag
and slicing out the JPEG payload. -/
def processFrameStart (f64 : List ℕ → ℚ) (s : SourceState) (data : List ℕ) :
    StartOutcome × SourceState :=
  if data.length < HEADER_SIZE then (.rejected, s)
  else if getUint8 data 0 ≠ 1 then (.rejected, s)
  else
    let timestamp := frameTimestamp f64 data
    let width := getUint32le data 9
    let height := getUint32le data 13
    let dataLen := getUint32le data 17
    if data.length < HEADER_SIZE + dataLen then (.rejected, s)
    else
      let entry := s.entry.getD freshEntry
      if timestamp ≤ entry.lastTimestamp then (.rejected, { s with entry := some entry })
      else if entry.processing then (.rejected, { s with entry := some entry })
      else
        let jpegData := (data.drop HEADER_SIZE).take dataLen
        (.started ⟨timestamp, width, height, jpegData⟩,
         { entry := some { entry with processing := true }
           pending := some ⟨timestamp, width, height, jpegData⟩ })

/-- The continuation of `processFrame` after `createImageBitmap` settles:
on success install the bitmap (disposing GPU storage on a dimension change),
advance `lastTimestamp`, bump `frameCount` and clear the busy flag; on
decode failure just clear the busy flag. Returns the promise's boolean. -/
def processFrameComplete (ok : Bool) (s : SourceState) : Bool × SourceState :=
  match s.pending, s.entry with
  | some p, some entry =>
    if ok then
      let entry :=
        if entry.currentWidth ≠ p.width ∨ entry.currentHeight ≠ p.height then
          { entry with currentWidth := p.width, currentHeight := p.height }
        else entry
      (true,
       { entry := some { entry with
           lastBitmap := some p.jpegData
           image := .bitmap p.jpegData
           lastTimestamp := p.timestamp
           frameCount := entry.frameCount + 1
           processing := false }
         pending := none })
    else
      (false,
       { entry := some { entry with processing := false }, pending := none })
  | _, _ => (false, { s with pending := none })

/-- A whole `processFrame` call run without interleaving: the synchronous
prefix followed, when a decode was started, by its completion. `decode`
models whether `createImageBitmap` succeeds on given JPEG bytes. -/
def processFrame (f64 : List ℕ → ℚ) (decode : List ℕ → Bool)
    (s : SourceState) (data : List ℕ) : Bool × SourceState :=
  match processFrameStart f64 s data with
  | (.rejected, s') => (false, s')
  | (.started p, s') => processFrameComplete (decode p.jpegData) s'

/-- `lastTimestamp` as observed by the stale-frame check (a missing entry
behaves as the fresh entry it would be created as). -/
def lastTs (s : SourceState) : ℚ := (s.entry.getD freshEntry).lastTimestamp

/-- Whether the source's entry is currently marked busy. -/
def entryBusy (s : SourceState) : Bool := (s.entry.getD freshEntry).processing

/-- Run a sequence of sequential `processFrame` calls, collecting the
timestamps of the frames actually applied to the texture. -/
def runFrames (f64 : List ℕ → ℚ) (decode : List ℕ → Bool)
    (s : SourceState) : List (List ℕ) → SourceState × List ℚ
  | [] => (s, [])
  | data :: rest =>
    let r := processFrame f64 decode s data
    let r' := runFrames f64 decode r.2 rest
    (r'.1, (if r.1 then [frameTimestamp f64 data] else []) ++ r'.2)

/-- Interleaved event semantics for one source: a frame arriving from the
socket, or the in-flight decode settling with success or failure. -/
inductive FrameEv where
  | arrive (data : List ℕ)
  | settle (ok : Bool)
deriving DecidableEq, Repr

/-- One event step; returns the applied frame's timestamp when the event
installed a frame. -/
def stepEv (f64 : List ℕ → ℚ) (s : SourceState) : FrameEv → SourceState × Option ℚ
  | .arrive data => ((processFrameStart f64 s data).2, none)
  | .settle ok =>
    let r := processFrameComplete ok s
    (r.2, if r.1 then s.pending.map (·.timestamp) else none)

/-- Run a list of interleaved events, collecting applied timestamps. -/
def runEvents (f64 : List ℕ → ℚ) (s : SourceState) :
    List FrameEv → SourceState × List ℚ
  | [] => (s, [])
  | e :: rest =>
    let r := stepEv f64 s e
    let r' := runEvents f64 r.1 rest
    (r'.1, r.2.toList ++ r'.2)

/-- The busy-flag discipline: a decode is pending exactly when the entry is
marked busy. -/
def BusyInv (s : SourceState) : Prop := s.pending.isSome = entryBusy s

/-- `useWebSocket` options relevant to reconnection. -/
structure WSConfig where
  reconnectDelay : ℚ
  maxReconnectDelay : ℚ
  autoReconnect : Bool
deriving DecidableEq, Repr

/-- The hook's mutable refs: `connected`, `reconnectAttemptRef`,
`reconnectTimerRef` (the pending scheduled reconnect, carrying its delay)
and `intentionalCloseRef`. -/
structure WSState where
  connected : Bool
  reconnectAttempt : ℕ
  reconnectTimer : Option ℚ
  intentionalClose : Bool
deriving DecidableEq, Repr

/-- Ref state on mount, before any socket event. -/
def initialWSState : WSState :=
  { connected := false
    reconnectAttempt := 0
    reconnectTimer := none
    intentionalClose := false }

/-- `ws.onopen`: mark connected and reset the attempt counter. -/
def onOpen (s : WSState) : WSState :=
  { s with connected := true, reconnectAttempt := 0 }

/-- `ws.onclose`: mark disconnected; unless the close was intentional (or
auto-reconnect is off), schedule a reconnect after
`min(reconnectDelay * 2 ^ attempt, maxReconnectDelay)` and increment the
attempt counter. Returns the scheduled delay, if any. -/
def onClose (cfg : WSConfig) (s : WSState) : WSState × Option ℚ :=
  let s := { s with connected := false }
  if cfg.autoReconnect && !s.intentionalClose then
    let delay := min (cfg.reconnectDelay * 2 ^ s.reconnectAttempt) cfg.maxReconnectDelay
    ({ s with reconnectAttempt := s.reconnectAttempt + 1, reconnectTimer := some delay },
     some delay)
  else (s, none)

/-- `connect()`: clears the intentional-close flag and opens a new socket
(the socket itself is external; only the refs are modelled). -/
def wsConnect (s : WSState) : WSState := { s with intentionalClose := false }

/-- The explicit `close()`: set the intentional-close flag, cancel any
pending scheduled reconnect, close the socket. -/
def wsUserClose (s : WSState) : WSState :=
  { s with intentionalClose := true, reconnectTimer := none, connected := false }

/-- Transport events: a successful open, an unexpected close, an explicit
`close()` call, or the pending reconnect timer firing (`connect`). -/
inductive WSEv where
  | opened
  | unexpectedClose
  | userClose
  | timerFire
deriving DecidableEq, Repr

/-- One transport event step; returns the delay scheduled by this event. -/
def wsStep (cfg : WSConfig) (s : WSState) : WSEv → WSState × Option ℚ
  | .opened => (onOpen s, none)
  | .unexpectedClose => onClose cfg s
  | .userClose => (wsUserClose s, none)
  | .timerFire =>
    match s.reconnectTimer with
    | some _ => (wsConnect { s with reconnectTimer := none }, none)
    | none => (s, none)

/-- Run a list of transport events, collecting the scheduled delays. -/
def wsRun (cfg : WSConfig) (s : WSState) : List WSEv → WSState × List ℚ
  | [] => (s, [])
  | e :: rest =>
    let r := wsStep cfg s e
    let r' := wsRun cfg r.1 rest
    (r'.1, r.2.toList ++ r'.2)

/-- The clamp ranges of a tracker config, as a predicate on the three
clamped fields of a pose. -/
def InRange (cfg : HeadPoseConfig) (x y z : ℚ) : Prop :=
  cfg.clampX.1 ≤ x ∧ x ≤ cfg.clampX.2 ∧
  cfg.clampY.1 ≤ y ∧ y ≤ cfg.clampY.2 ∧
  cfg.clampZ.1 ≤ z ∧ z ≤ cfg.clampZ.2

/-- The four asymmetric-frustum equations of `updateProjectionMatrix`,
stated of a camera's current frustum, head offset and settings. -/
def FrustumSpec (c : OffAxisCamera) : Prop :=
  c.frustum.left = (-(c.screenWidth / 2) - c.headX) * (c.settings.nearPlane / c.headZ) ∧
  c.frustum.right = (c.screenWidth / 2 - c.headX) * (c.settings.nearPlane / c.headZ) ∧
  c.frustum.bottom = (-(c.screenHeight / 2) - c.headY) * (c.settings.nearPlane / c.headZ) ∧
  c.frustum.top = (c.screenHeight / 2 - c.headY) * (c.settings.nearPlane / c.headZ)

/-- A camera used as counterexample input: default settings except
`movementScale = 2`, head at rest. -/
def camC2 : OffAxisCamera :=
  { settings := { DEFAULT_SETTINGS with movementScale := 2 }
    screenWidth := 34/100
    screenHeight := 19/100
    headX := 0
    headY := 0
    headZ := 6/10
    frustum := ⟨0, 0, 0, 0⟩
    posX := 0
    posY := 0
    posZ := 6/10 }

/-- A pose 100 cm in front of the screen, used as counterexample input. -/
def poseC2 : SmoothedHeadPose :=
  { x := 1/2, y := 1/2, z := 1, interOcularPx := 1/10, timestamp := 0
    worldX := 0, worldY := 0, worldZ := 100 }

/-- C1: after `updateFromHeadPose` or `setHeadPosition` the recomputed
frustum satisfies `left = (-halfW - headX) * (near/dist)`,
`right = (halfW - headX) * (near/dist)`, `bottom = (-halfH - headY) *
(near/dist)`, `top = (halfH - headY) * (near/dist)`; and with head offset
`(0, 0, dist)` the frustum is symmetric: `left = -right` and
`bottom = -top`. -/
theorem frustum_formula_and_symmetry (c : OffAxisCamera)
    (pose : SmoothedHeadPose) (x y z dist : ℚ) :
    FrustumSpec (c.updateFromHeadPose pose) ∧
    FrustumSpec (c.setHeadPosition x y z) ∧
    ((c.setHeadPosition 0 0 dist).frustum.left =
        -(c.setHeadPosition 0 0 dist).frustum.right ∧
      (c.setHeadPosition 0 0 dist).frustum.bottom =
        -(c.setHeadPosition 0 0 dist).frustum.top) := by
  refine ⟨⟨?_, ?_, ?_, ?_⟩, ⟨?_, ?_, ?_, ?_⟩, ?_, ?_⟩ <;>
    simp [OffAxisCamera.updateFromHeadPose, OffAxisCamera.setHeadPosition,
      OffAxisCamera.updateProjectionMatrix, FrustumSpec]

/-- C2 counterexample: with `movementScale = 2` and a pose 100 cm away, the
code sets `headZ = max(0.1, (worldZ/100) * axisStrength.z) = 1`, not the
claimed `max(0.1, (worldZ/100) * movementScale * axisStrength.z) = 2`: the
distance axis does not apply `movementScale`. -/
theorem headZ_ignores_movementScale :
    (camC2.updateFromHeadPose poseC2).headZ ≠
      max (1/10) (poseC2.worldZ / 100 * camC2.settings.movementScale *
        camC2.settings.axisStrength.z) := by
  simp only [camC2, poseC2, DEFAULT_SETTINGS, OffAxisCamera.updateFromHeadPose,
    OffAxisCamera.updateProjectionMatrix]
  norm_num [max_def]

/-- C2 amended: `updateFromHeadPose` sets
`headX = (worldX/100) * movementScale * axisStrength.x`,
`headY = (worldY/100) * movementScale * axisStrength.y`, and
`headZ = (worldZ/100) * axisStrength.z` (without `movementScale`) clamped to
a minimum of 0.1, then recomputes the frustum. -/
theorem updateFromHeadPose_spec (c : OffAxisCamera) (pose : SmoothedHeadPose) :
    (c.updateFromHeadPose pose).headX =
      pose.worldX / 100 * c.settings.movementScale * c.settings.axisStrength.x ∧
    (c.updateFromHeadPose pose).headY =
      pose.worldY / 100 * c.settings.movementScale * c.settings.axisStrength.y ∧
    (c.updateFromHeadPose pose).headZ =
      max (1/10) (pose.worldZ / 100 * c.settings.axisStrength.z) ∧
    FrustumSpec (c.updateFromHeadPose pose) := by
  refine ⟨?_, ?_, ?_, ?_, ?_, ?_, ?_⟩ <;>
    simp [OffAxisCamera.updateFromHeadPose,
      OffAxisCamera.updateProjectionMatrix, FrustumSpec]

/-- C8: `headPoseToWorldPosition` is a pure function computing
`(-(x - 0.5) * screenWidthCm, -(y - 0.5) * screenHeightCm,
baseDistanceCm / z)`, and at `x = y = 0.5`, `z = 1` with a 34×19 cm screen
at 60 cm it yields `(0, 0, 60)`. -/
theorem headPoseToWorldPosition_spec (pose : HeadPose) (w h d : ℚ) :
    headPoseToWorldPosition pose w h d =
      (-(pose.x - 1/2) * w, -(pose.y - 1/2) * h, d / pose.z) ∧
    headPoseToWorldPosition ⟨1/2, 1/2, 1, 1/10, 0⟩ 34 19 60 = (0, 0, 60) := by
  constructor
  · rfl
  · norm_num [headPoseToWorldPosition]

/-- `clamp` lands in the range whenever the range is well-formed. -/
theorem clamp_mem_range (v lo hi : ℚ) (h : lo ≤ hi) :
    lo ≤ clamp v lo hi ∧ clamp v lo hi ≤ hi := by
  unfold clamp
  exact ⟨le_max_left _ _, max_le h (min_le_left _ _)⟩

/-- `ema` of two values in a range stays in the range when `0 ≤ α ≤ 1`. -/
theorem ema_mem_range (a b alpha lo hi : ℚ) (h0 : 0 ≤ alpha) (h1 : alpha ≤ 1)
    (ha : lo ≤ a ∧ a ≤ hi) (hb : lo ≤ b ∧ b ≤ hi) :
    lo ≤ ema a b alpha ∧ ema a b alpha ≤ hi := by
  unfold ema
  have p1 : 0 ≤ alpha * (a - lo) := mul_nonneg h0 (by linarith [ha.1])
  have p2 : 0 ≤ (1 - alpha) * (b - lo) := mul_nonneg (by linarith) (by linarith [hb.1])
  have p3 : 0 ≤ alpha * (hi - a) := mul_nonneg h0 (by linarith [ha.2])
  have p4 : 0 ≤ (1 - alpha) * (hi - b) := mul_nonneg (by linarith) (by linarith [hb.2])
  constructor <;> nlinarith [p1, p2, p3, p4]

/-- C9: `update` returns no pose when the landmark array is absent or has
fewer than 468 points, and in both cases the tracker state — in particular
the stored previous smoothed sample — is returned unchanged. -/
theorem update_insufficient_landmarks (sqrtFn : ℚ → ℚ) (now : ℚ)
    (cal : CalibrationData) (t : HeadPoseTracker) (lms : List Landmark)
    (h : lms.length < 468) :
    t.update sqrtFn now cal none = (none, t) ∧
    t.update sqrtFn now cal (some lms) = (none, t) := by
  refine ⟨rfl, ?_⟩
  simp [HeadPoseTracker.update, h]

/-- Witness for C9: the empty landmark list is rejected and the tracker is
untouched. -/
theorem update_insufficient_landmarks_witness :
    HeadPoseTracker.update (fun q => q) 0 DEFAULT_CALIBRATION
        ⟨DEFAULT_CONFIG, none⟩ (some []) = (none, ⟨DEFAULT_CONFIG, none⟩) :=
  (update_insufficient_landmarks (fun q => q) 0 DEFAULT_CALIBRATION
    ⟨DEFAULT_CONFIG, none⟩ [] (by decide)).2

/-- Shape of a successful `update`: the returned pose is the smoothed
sample (raw on a first update, per-field EMA against the previous sample
otherwise) extended with its world conversion, and it becomes the stored
previous sample. -/
theorem update_shape (sqrtFn : ℚ → ℚ) (now : ℚ) (cal : CalibrationData)
    (t : HeadPoseTracker) (lms : List Landmark)
    (hlen : ¬ lms.length < 468) :
    (t.previousPose = none →
      t.update sqrtFn now cal (some lms) =
        (some (withWorld (rawSample sqrtFn now t.config lms) cal),
         { t with previousPose := some (rawSample sqrtFn now t.config lms) })) ∧
    (∀ prev, t.previousPose = some prev →
      t.update sqrtFn now cal (some lms) =
        (some (withWorld ⟨ema (rawSample sqrtFn now t.config lms).x prev.x
            t.config.smoothingFactor,
          ema (rawSample sqrtFn now t.config lms).y prev.y
            t.config.smoothingFactor,
          ema (rawSample sqrtFn now t.config lms).z prev.z
            t.config.smoothingFactor,
          ema (rawSample sqrtFn now t.config lms).interOcularPx
            prev.interOcularPx t.config.smoothingFactor, now⟩ cal),
         { t with previousPose := some ⟨ema (rawSample sqrtFn now t.config lms).x
            prev.x t.config.smoothingFactor,
          ema (rawSample sqrtFn now t.config lms).y prev.y
            t.config.smoothingFactor,
          ema (rawSample sqrtFn now t.config lms).z prev.z
            t.config.smoothingFactor,
          ema (rawSample sqrtFn now t.config lms).interOcularPx
            prev.interOcularPx t.config.smoothingFactor, now⟩ })) := by
  constructor
  · intro hprev
    simp [HeadPoseTracker.update, hlen, hprev]
  · intro prev hprev
    simp [HeadPoseTracker.update, hlen, hprev]

/-- C7: with a stored previous sample, `update` smooths each of x, y, z and
interOcularPx by `smoothed = α·current + (1−α)·previous` against the raw
clamped sample; the first update after creation or `reset` returns the raw
clamped sample unsmoothed; the deviation of the smoothed value from the raw
value shrinks by the factor `(1−α)` per update on constant input, and the
raw value is the EMA fixed point. -/
theorem update_ema_smoothing (sqrtFn : ℚ → ℚ) (now : ℚ) (cal : CalibrationData)
    (t : HeadPoseTracker) (lms : List Landmark) (raw : HeadPose)
    (hlen : ¬ lms.length < 468)
    (hraw : raw = rawSample sqrtFn now t.config lms) :
    (t.previousPose = none →
      t.update sqrtFn now cal (some lms) =
        (some (withWorld raw cal), { t with previousPose := some raw })) ∧
    (∀ prev, t.previousPose = some prev →
      ∃ sm : HeadPose,
        t.update sqrtFn now cal (some lms) =
          (some (withWorld sm cal), { t with previousPose := some sm }) ∧
        sm.x = ema raw.x prev.x t.config.smoothingFactor ∧
        sm.y = ema raw.y prev.y t.config.smoothingFactor ∧
        sm.z = ema raw.z prev.z t.config.smoothingFactor ∧
        sm.interOcularPx = ema raw.interOcularPx prev.interOcularPx
          t.config.smoothingFactor ∧
        sm.x - raw.x = (1 - t.config.smoothingFactor) * (prev.x - raw.x) ∧
        sm.y - raw.y = (1 - t.config.smoothingFactor) * (prev.y - raw.y) ∧
        sm.z - raw.z = (1 - t.config.smoothingFactor) * (prev.z - raw.z) ∧
        sm.interOcularPx - raw.interOcularPx =
          (1 - t.config.smoothingFactor) *
            (prev.interOcularPx - raw.interOcularPx)) ∧
    (∀ v alpha : ℚ, ema v v alpha = v) := by
  subst hraw
  have hs := update_shape sqrtFn now cal t lms hlen
  refine ⟨hs.1, ?_, ?_⟩
  · intro prev hprev
    refine ⟨_, hs.2 prev hprev, rfl, rfl, rfl, rfl, ?_, ?_, ?_, ?_⟩
    all_goals unfold ema; ring
  · intro v alpha
    unfold ema; ring

/-- Witness for C7: a first update on a constant landmark frame returns the
raw clamped sample unsmoothed. -/
theorem update_ema_smoothing_witness :
    HeadPoseTracker.update (fun q => q) 0 DEFAULT_CALIBRATION
        ⟨DEFAULT_CONFIG, none⟩ (some (List.replicate 468 ⟨1/2, 1/2, 0⟩)) =
      (some (withWorld (rawSample (fun q => q) 0 DEFAULT_CONFIG
          (List.replicate 468 ⟨1/2, 1/2, 0⟩)) DEFAULT_CALIBRATION),
       ⟨DEFAULT_CONFIG, some (rawSample (fun q => q) 0 DEFAULT_CONFIG
          (List.replicate 468 ⟨1/2, 1/2, 0⟩))⟩) :=
  (update_ema_smoothing (fun q => q) 0 DEFAULT_CALIBRATION ⟨DEFAULT_CONFIG, none⟩
    (List.replicate 468 ⟨1/2, 1/2, 0⟩) _
    (by rw [List.length_replicate]; exact lt_irrefl 468) rfl).1 rfl

/-- The raw clamped sample lies in the configured ranges whenever those
ranges are well-formed, whatever `Math.sqrt` returned. -/
theorem rawSample_inRange (sqrtFn : ℚ → ℚ) (now : ℚ) (cfg : HeadPoseConfig)
    (lms : List Landmark)
    (hx : cfg.clampX.1 ≤ cfg.clampX.2)
    (hy : cfg.clampY.1 ≤ cfg.clampY.2)
    (hz : cfg.clampZ.1 ≤ cfg.clampZ.2) :
    InRange cfg (rawSample sqrtFn now cfg lms).x (rawSample sqrtFn now cfg lms).y
      (rawSample sqrtFn now cfg lms).z :=
  ⟨(clamp_mem_range _ _ _ hx).1, (clamp_mem_range _ _ _ hx).2,
   (clamp_mem_range _ _ _ hy).1, (clamp_mem_range _ _ _ hy).2,
   (clamp_mem_range _ _ _ hz).1, (clamp_mem_range _ _ _ hz).2⟩

/-- C10: provided the smoothing factor lies in `[0, 1]` and the configured
clamp ranges are well-formed, every pose returned by `update` has x, y, z
inside the configured ranges, the stored previous sample stays inside them
(so the invariant is preserved across any sequence of updates), and when the
z floor is positive the returned z is nonzero, so the world conversion's
division `baseDistanceCm / z` is never a division by zero. -/
theorem update_range_invariant (sqrtFn : ℚ → ℚ) (now : ℚ) (cal : CalibrationData)
    (t : HeadPoseTracker) (landmarks : Option (List Landmark))
    (pose : SmoothedHeadPose) (t' : HeadPoseTracker)
    (h0 : 0 ≤ t.config.smoothingFactor) (h1 : t.config.smoothingFactor ≤ 1)
    (hx : t.config.clampX.1 ≤ t.config.clampX.2)
    (hy : t.config.clampY.1 ≤ t.config.clampY.2)
    (hz : t.config.clampZ.1 ≤ t.config.clampZ.2)
    (hprev : ∀ p, t.previousPose = some p → InRange t.config p.x p.y p.z)
    (h : t.update sqrtFn now cal landmarks = (some pose, t')) :
    InRange t.config pose.x pose.y pose.z ∧
    t'.config = t.config ∧
    (∀ p, t'.previousPose = some p → InRange t.config p.x p.y p.z) ∧
    (0 < t.config.clampZ.1 → pose.z ≠ 0 ∧
      pose.worldZ = cal.viewingDistanceCm / pose.z) := by
  rcases landmarks with _ | lms
  · exact Option.noConfusion (congrArg Prod.fst h)
  by_cases hlen : lms.length < 468
  · simp [HeadPoseTracker.update, hlen] at h
  rcases hp : t.previousPose with _ | prev
  · have hu := (update_shape sqrtFn now cal t lms hlen).1 hp
    rw [hu] at h
    obtain ⟨h1', h2'⟩ := Prod.mk.injEq .. ▸ h
    replace h1' := Option.some.inj h1'
    subst h2'
    have hr := rawSample_inRange sqrtFn now t.config lms hx hy hz
    have hpx : pose.x = (rawSample sqrtFn now t.config lms).x := by rw [← h1']; rfl
    have hpy : pose.y = (rawSample sqrtFn now t.config lms).y := by rw [← h1']; rfl
    have hpz : pose.z = (rawSample sqrtFn now t.config lms).z := by rw [← h1']; rfl
    have hwz : pose.worldZ = cal.viewingDistanceCm / pose.z := by
      rw [← h1']; rfl
    refine ⟨by rw [hpx, hpy, hpz]; exact hr, rfl, ?_, ?_⟩
    · intro p hpeq
      simp only [Option.some.injEq] at hpeq
      subst hpeq
      rw [hpx, hpy, hpz] at *
      exact hr
    · intro hzpos
      refine ⟨?_, hwz⟩
      rw [hpz]
      exact (lt_of_lt_of_le hzpos hr.2.2.2.2.1).ne'
  · obtain ⟨sm, hu, hsx, hsy, hsz⟩ :
        ∃ sm : HeadPose,
          t.update sqrtFn now cal (some lms) =
            (some (withWorld sm cal), { t with previousPose := some sm }) ∧
          sm.x = ema (rawSample sqrtFn now t.config lms).x prev.x
            t.config.smoothingFactor ∧
          sm.y = ema (rawSample sqrtFn now t.config lms).y prev.y
            t.config.smoothingFactor ∧
          sm.z = ema (rawSample sqrtFn now t.config lms).z prev.z
            t.config.smoothingFactor :=
      ⟨_, (update_shape sqrtFn now cal t lms hlen).2 prev hp, rfl, rfl, rfl⟩
    rw [hu] at h
    obtain ⟨h1', h2'⟩ := Prod.mk.injEq .. ▸ h
    replace h1' := Option.some.inj h1'
    subst h2'
    have hr := rawSample_inRange sqrtFn now t.config lms hx hy hz
    have hpr := hprev prev hp
    have hsmx : t.config.clampX.1 ≤ sm.x ∧ sm.x ≤ t.config.clampX.2 := by
      rw [hsx]
      exact ema_mem_range _ _ _ _ _ h0 h1 ⟨hr.1, hr.2.1⟩ ⟨hpr.1, hpr.2.1⟩
    have hsmy : t.config.clampY.1 ≤ sm.y ∧ sm.y ≤ t.config.clampY.2 := by
      rw [hsy]
      exact ema_mem_range _ _ _ _ _ h0 h1 ⟨hr.2.2.1, hr.2.2.2.1⟩
        ⟨hpr.2.2.1, hpr.2.2.2.1⟩
    have hsmz : t.config.clampZ.1 ≤ sm.z ∧ sm.z ≤ t.config.clampZ.2 := by
      rw [hsz]
      exact ema_mem_range _ _ _ _ _ h0 h1 ⟨hr.2.2.2.2.1, hr.2.2.2.2.2⟩
        ⟨hpr.2.2.2.2.1, hpr.2.2.2.2.2⟩
    have hpx : pose.x = sm.x := by rw [← h1']; rfl
    have hpy : pose.y = sm.y := by rw [← h1']; rfl
    have hpz : pose.z = sm.z := by rw [← h1']; rfl
    have hwz : pose.worldZ = cal.viewingDistanceCm / pose.z := by
      rw [← h1']; rfl
    refine ⟨⟨by rw [hpx]; exact hsmx.1, by rw [hpx]; exact hsmx.2,
      by rw [hpy]; exact hsmy.1, by rw [hpy]; exact hsmy.2,
      by rw [hpz]; exact hsmz.1, by rw [hpz]; exact hsmz.2⟩, rfl, ?_, ?_⟩
    · intro p hpeq
      simp only [Option.some.injEq] at hpeq
      subst hpeq
      exact ⟨hsmx.1, hsmx.2, hsmy.1, hsmy.2, hsmz.1, hsmz.2⟩
    · intro hzpos
      refine ⟨?_, hwz⟩
      rw [hpz]
      exact (lt_of_lt_of_le hzpos hsmz.1).ne'

/-- Witness for C10: a concrete update under the default config returns a
pose inside the default clamp ranges. -/
theorem update_range_invariant_witness :
    InRange DEFAULT_CONFIG (1/2 : ℚ) (1/2) (3/10) :=
  (update_range_invariant (fun q => q) 0 DEFAULT_CALIBRATION ⟨DEFAULT_CONFIG, none⟩
    (some (List.replicate 468 ⟨1/2, 1/2, 0⟩)) ⟨1/2, 1/2, 3/10, 0, 0, 0, 0, 200⟩
    ⟨DEFAULT_CONFIG, some ⟨1/2, 1/2, 3/10, 0, 0⟩⟩
    (by norm_num [DEFAULT_CONFIG]) (by norm_num [DEFAULT_CONFIG])
    (by norm_num [DEFAULT_CONFIG]) (by norm_num [DEFAULT_CONFIG])
    (by norm_num [DEFAULT_CONFIG])
    (fun p hp => Option.noConfusion hp)
    (by
      have hg : ∀ i : ℕ, i < 468 →
          (List.replicate 468 (Landmark.mk (1/2) (1/2) 0)).getD i ⟨0, 0, 0⟩ =
            ⟨1/2, 1/2, 0⟩ := by
        intro i hi
        rw [List.getD_eq_getElem?_getD, List.getElem?_replicate]
        simp [hi]
      simp only [HeadPoseTracker.update, rawSample, withWorld,
        headPoseToWorldPosition, List.length_replicate, lt_irrefl, if_false,
        hg 133 (by norm_num), hg 362 (by norm_num), hg 1 (by norm_num),
        hg 33 (by norm_num), hg 263 (by norm_num)]
      norm_num [clamp, max_def, min_def, DEFAULT_CONFIG, DEFAULT_CALIBRATION])).1

/-- When the synchronous prefix of `processFrame` starts a decode, the
frame passed every check: its timestamp is the header timestamp and beats
`lastTimestamp`, the entry was not busy, and the resulting state marks the
entry busy with exactly this decode pending. -/
theorem processFrameStart_started (f64 : List ℕ → ℚ) (s : SourceState)
    (data : List ℕ) (p : PendingDecode) (s' : SourceState)
    (h : processFrameStart f64 s data = (.started p, s')) :
    p.timestamp = frameTimestamp f64 data ∧
    lastTs s < p.timestamp ∧
    (s.entry.getD freshEntry).processing = false ∧
    s' = ⟨some { s.entry.getD freshEntry with processing := true }, some p⟩ := by
  simp only [processFrameStart] at h
  split_ifs at h with h1 h2 h3 h4 h5
  · exact absurd (congrArg Prod.fst h) (by simp)
  · exact absurd (congrArg Prod.fst h) (by simp)
  · exact absurd (congrArg Prod.fst h) (by simp)
  · exact absurd (congrArg Prod.fst h) (by simp)
  · exact absurd (congrArg Prod.fst h) (by simp)
  · injection h with hp' hs'
    injection hp' with hp''
    subst hp''
    subst hs'
    exact ⟨rfl, lt_of_not_le h4, Bool.not_eq_true _ ▸ h5, rfl⟩

/-- When the synchronous prefix rejects, the source state is unchanged up
to the create-on-demand entry: `lastTs`, `entryBusy` and the pending decode
are all preserved. -/
theorem processFrameStart_rejected (f64 : List ℕ → ℚ) (s : SourceState)
    (data : List ℕ) (s' : SourceState)
    (h : processFrameStart f64 s data = (.rejected, s')) :
    s' = s ∨ s' = { s with entry := some (s.entry.getD freshEntry) } := by
  simp only [processFrameStart] at h
  split_ifs at h with h1 h2 h3 h4 h5
  · exact Or.inl (congrArg Prod.snd h).symm
  · exact Or.inl (congrArg Prod.snd h).symm
  · exact Or.inl (congrArg Prod.snd h).symm
  · exact Or.inr (congrArg Prod.snd h).symm
  · exact Or.inr (congrArg Prod.snd h).symm
  · exact absurd (congrArg Prod.fst h) (by simp)

/-- Rejection preserves the observables of the source state. -/
theorem processFrameStart_rejected_obs (f64 : List ℕ → ℚ) (s : SourceState)
    (data : List ℕ) (s' : SourceState)
    (h : processFrameStart f64 s data = (.rejected, s')) :
    lastTs s' = lastTs s ∧ entryBusy s' = entryBusy s ∧ s'.pending = s.pending := by
  rcases processFrameStart_rejected f64 s data s' h with h' | h' <;> subst h' <;>
    simp [lastTs, entryBusy]

/-- Behaviour of the decode continuation when a decode is pending and the
entry exists: the returned boolean is the decode result, the pending slot
and the busy flag are cleared, on success `lastTimestamp` becomes the
decoded frame's timestamp, and on failure the entry is unchanged except for
the busy flag. -/
theorem processFrameComplete_spec (ok : Bool) (s : SourceState)
    (p : PendingDecode) (e : TextureEntry)
    (hp : s.pending = some p) (he : s.entry = some e) :
    (processFrameComplete ok s).1 = ok ∧
    (processFrameComplete ok s).2.pending = none ∧
    entryBusy (processFrameComplete ok s).2 = false ∧
    (ok = true → lastTs (processFrameComplete ok s).2 = p.timestamp) ∧
    (ok = false →
      (processFrameComplete ok s).2 = ⟨some { e with processing := false }, none⟩) := by
  unfold processFrameComplete
  rw [hp, he]
  cases ok <;> simp [lastTs, entryBusy]

/-- A frame with a valid header, a fresh timestamp and an idle entry starts
a decode. -/
theorem processFrameStart_accepts (f64 : List ℕ → ℚ) (s : SourceState)
    (data : List ℕ)
    (h1 : ¬ data.length < HEADER_SIZE)
    (h2 : getUint8 data 0 = 1)
    (h3 : ¬ data.length < HEADER_SIZE + getUint32le data 17)
    (h4 : lastTs s < frameTimestamp f64 data)
    (h5 : entryBusy s = false) :
    (processFrameStart f64 s data).1 =
      .started ⟨frameTimestamp f64 data, getUint32le data 9, getUint32le data 13,
        (data.drop HEADER_SIZE).take (getUint32le data 17)⟩ := by
  have h4' : ¬ frameTimestamp f64 data ≤ (s.entry.getD freshEntry).lastTimestamp :=
    not_le.2 h4
  have h5' : ¬ (s.entry.getD freshEntry).processing = true := by
    simp [entryBusy] at h5
    simp [h5]
  simp only [processFrameStart]
  rw [if_neg h1, if_neg (by simp [h2]), if_neg h3, if_neg h4', if_neg h5']

/-- `lastTimestamp` never decreases across a `processFrame` call. -/
theorem lastTs_mono (f64 : List ℕ → ℚ) (decode : List ℕ → Bool)
    (s : SourceState) (data : List ℕ) :
    lastTs s ≤ lastTs (processFrame f64 decode s data).2 := by
  unfold processFrame
  rcases hstart : processFrameStart f64 s data with ⟨out, s₁⟩
  cases out with
  | rejected =>
    exact le_of_eq (processFrameStart_rejected_obs f64 s data s₁ hstart).1.symm
  | started p =>
    obtain ⟨hts, hlt, _, hs₁⟩ := processFrameStart_started f64 s data p s₁ hstart
    subst hs₁
    obtain ⟨_, _, _, hok, hfail⟩ :=
      processFrameComplete_spec (decode p.jpegData)
        ⟨some { s.entry.getD freshEntry with processing := true }, some p⟩ p
        { s.entry.getD freshEntry with processing := true } rfl rfl
    cases hd : decode p.jpegData with
    | true => rw [hok hd]; exact le_of_lt hlt
    | false => rw [hfail hd]; exact le_of_eq rfl

/-- A `processFrame` call that returns `true` beat `lastTimestamp` and
advanced it to the applied frame's header timestamp. -/
theorem processFrame_applied (f64 : List ℕ → ℚ) (decode : List ℕ → Bool)
    (s : SourceState) (data : List ℕ)
    (h : (processFrame f64 decode s data).1 = true) :
    lastTs s < frameTimestamp f64 data ∧
    lastTs (processFrame f64 decode s data).2 = frameTimestamp f64 data := by
  unfold processFrame at h ⊢
  rcases hstart : processFrameStart f64 s data with ⟨out, s₁⟩
  rw [hstart] at h
  cases out with
  | rejected => exact absurd h (by simp)
  | started p =>
    obtain ⟨hts, hlt, _, hs₁⟩ := processFrameStart_started f64 s data p s₁ hstart
    subst hs₁
    obtain ⟨hfst, _, _, hok, _⟩ :=
      processFrameComplete_spec (decode p.jpegData)
        ⟨some { s.entry.getD freshEntry with processing := true }, some p⟩ p
        { s.entry.getD freshEntry with processing := true } rfl rfl
    rw [hfst] at h
    exact ⟨hts ▸ hlt, by rw [hok h, hts]⟩

/-- The applied timestamps of a sequential run all exceed the starting
`lastTimestamp`, form a strictly increasing sequence, and the final
`lastTimestamp` dominates the starting one. -/
theorem runFrames_chain (f64 : List ℕ → ℚ) (decode : List ℕ → Bool) :
    ∀ (datas : List (List ℕ)) (s : SourceState),
      (∀ x ∈ (runFrames f64 decode s datas).2, lastTs s < x) ∧
      List.Chain' (· < ·) (runFrames f64 decode s datas).2 ∧
      lastTs s ≤ lastTs (runFrames f64 decode s datas).1 := by
  intro datas
  induction datas with
  | nil => exact fun s => ⟨by simp [runFrames], by simp [runFrames], le_refl _⟩
  | cons data rest ih =>
    intro s
    obtain ⟨ihmem, ihchain, ihfinal⟩ := ih (processFrame f64 decode s data).2
    have hmono := lastTs_mono f64 decode s data
    cases hfst : (processFrame f64 decode s data).1 with
    | false =>
      refine ⟨?_, ?_, ?_⟩ <;> simp only [runFrames, hfst, if_false,
        Bool.false_eq_true, List.nil_append]
      · exact fun x hx => lt_of_le_of_lt hmono (ihmem x hx)
      · exact ihchain
      · exact le_trans hmono ihfinal
    | true =>
      obtain ⟨happ, hadv⟩ := processFrame_applied f64 decode s data hfst
      refine ⟨?_, ?_, ?_⟩ <;> simp only [runFrames, hfst, if_true,
        List.singleton_append]
      · intro x hx
        rcases List.mem_cons.1 hx with hx | hx
        · exact hx ▸ happ
        · exact lt_of_le_of_lt hmono (ihmem x hx)
      · refine List.chain'_cons'.2 ⟨?_, ihchain⟩
        intro y hy
        have : y ∈ (runFrames f64 decode (processFrame f64 decode s data).2 rest).2 :=
          List.mem_of_mem_head? hy
        exact hadv ▸ ihmem y this
      · exact le_trans hmono ihfinal

/-- C3: across any sequence of `processFrame` calls on one source, a frame
is applied only when its header timestamp strictly exceeds the entry's
`lastTimestamp`, a successful application sets `lastTimestamp` to that
timestamp, the timestamps ever applied form a strictly increasing
sequence, and a frame whose timestamp is ≤ `lastTimestamp` is dropped with
return value `false`. -/
theorem frame_timestamp_monotonic (f64 : List ℕ → ℚ) (decode : List ℕ → Bool)
    (s : SourceState) (datas : List (List ℕ)) (data : List ℕ) :
    List.Chain' (· < ·) (runFrames f64 decode s datas).2 ∧
    ((processFrame f64 decode s data).1 = true →
      lastTs s < frameTimestamp f64 data ∧
      lastTs (processFrame f64 decode s data).2 = frameTimestamp f64 data) ∧
    (frameTimestamp f64 data ≤ lastTs s →
      (processFrame f64 decode s data).1 = false) := by
  refine ⟨(runFrames_chain f64 decode datas s).2.1,
    processFrame_applied f64 decode s data, ?_⟩
  intro hle
  cases hfst : (processFrame f64 decode s data).1 with
  | false => rfl
  | true =>
    exact absurd (processFrame_applied f64 decode s data hfst).1 (not_lt.2 hle)

/-- Witness for C3: a stale frame (timestamp not above `lastTimestamp`) is
dropped. -/
theorem frame_timestamp_monotonic_witness :
    (processFrame (fun _ => 0) (fun _ => true) initialSource []).1 = false :=
  (frame_timestamp_monotonic (fun _ => 0) (fun _ => true) initialSource [] []).2.2
    (le_refl 0)

/-- With no decode pending, the completion continuation is a no-op that
reports failure. -/
theorem processFrameComplete_pending_none (ok : Bool) (s : SourceState)
    (hpend : s.pending = none) :
    processFrameComplete ok s = (false, { s with pending := none }) := by
  unfold processFrameComplete
  rw [hpend]

/-- Every interleaved event preserves the busy-flag discipline. -/
theorem busyInv_step (f64 : List ℕ → ℚ) (s : SourceState) (e : FrameEv)
    (h : BusyInv s) : BusyInv (stepEv f64 s e).1 := by
  cases e with
  | arrive data =>
    rcases hstart : processFrameStart f64 s data with ⟨out, s₁⟩
    cases out with
    | rejected =>
      obtain ⟨_, hb, hpend⟩ := processFrameStart_rejected_obs f64 s data s₁ hstart
      simp only [stepEv, hstart]
      unfold BusyInv at h ⊢
      rw [hb, hpend, h]
    | started p =>
      obtain ⟨_, _, _, hs₁⟩ := processFrameStart_started f64 s data p s₁ hstart
      subst hs₁
      simp [stepEv, hstart, BusyInv, entryBusy]
  | settle ok =>
    rcases hpend : s.pending with _ | p
    · simp only [stepEv, processFrameComplete_pending_none ok s hpend]
      unfold BusyInv at h ⊢
      simp only [hpend, Option.isSome_none] at h
      simpa [entryBusy] using h
    · rcases he : s.entry with _ | e
      · unfold BusyInv at h
        rw [hpend] at h
        simp [entryBusy, he, freshEntry] at h
      · obtain ⟨_, hpnone, hbusy, _, _⟩ := processFrameComplete_spec ok s p e hpend he
        simp only [stepEv]
        unfold BusyInv
        rw [hpnone, hbusy]
        rfl

/-- The busy-flag discipline is preserved along any interleaved run. -/
theorem busyInv_run (f64 : List ℕ → ℚ) (evs : List FrameEv) :
    ∀ s : SourceState, BusyInv s → BusyInv (runEvents f64 s evs).1 := by
  induction evs with
  | nil => exact fun s h => h
  | cons e rest ih =>
    intro s h
    exact ih _ (busyInv_step f64 s e h)

/-- C4: a frame arriving while the source's entry is mid-decode is dropped
with the whole source state unchanged (in particular nothing is queued);
the completion of the in-flight decode clears the busy flag whether it
succeeded or failed; after completion a valid frame with a newer timestamp
starts a decode again (no deadlock); and a decode is pending exactly when
the busy flag is set — at most one decode per source is in flight. -/
theorem decode_backpressure (f64 : List ℕ → ℚ) (s : SourceState)
    (e : TextureEntry) (p : PendingDecode) (data : List ℕ) (ok : Bool)
    (evs : List FrameEv)
    (he : s.entry = some e) (hbusy : e.processing = true)
    (hp : s.pending = some p) :
    processFrameStart f64 s data = (.rejected, s) ∧
    (∀ decode : List ℕ → Bool, processFrame f64 decode s data = (false, s)) ∧
    ((processFrameComplete ok s).2.pending = none ∧
      entryBusy (processFrameComplete ok s).2 = false) ∧
    (∀ data' : List ℕ, ¬ data'.length < HEADER_SIZE → getUint8 data' 0 = 1 →
      ¬ data'.length < HEADER_SIZE + getUint32le data' 17 →
      lastTs (processFrameComplete ok s).2 < frameTimestamp f64 data' →
      ∃ p', (processFrameStart f64 (processFrameComplete ok s).2 data').1 =
        .started p') ∧
    (BusyInv s → BusyInv (runEvents f64 s evs).1) := by
  obtain ⟨_, hpnone, hready, _, _⟩ := processFrameComplete_spec ok s p e hp he
  have hrej : processFrameStart f64 s data = (.rejected, s) := by
    rcases hstart : processFrameStart f64 s data with ⟨out, s₁⟩
    cases out with
    | started q =>
      have hidle := (processFrameStart_started f64 s data q s₁ hstart).2.2.1
      rw [he, Option.getD_some, hbusy] at hidle
      exact absurd hidle (by simp)
    | rejected =>
      rcases processFrameStart_rejected f64 s data s₁ hstart with h' | h'
      · rw [h']
      · rw [h', he, Option.getD_some, ← he]
  refine ⟨hrej, ?_, ⟨hpnone, hready⟩, ?_, busyInv_run f64 evs s⟩
  · intro decode
    unfold processFrame
    rw [hrej]
  · intro data' h1 h2 h3 h4
    exact ⟨_, processFrameStart_accepts f64 _ data' h1 h2 h3 h4 hready⟩

/-- Witness for C4: with a busy entry and a pending decode, an arriving
frame is rejected and the state is untouched. -/
theorem decode_backpressure_witness :
    processFrameStart (fun _ => 0)
        ⟨some { freshEntry with processing := true }, some ⟨1, 64, 64, []⟩⟩ [] =
      (.rejected,
        ⟨some { freshEntry with processing := true }, some ⟨1, 64, 64, []⟩⟩) :=
  (decode_backpressure (fun _ => 0)
    ⟨some { freshEntry with processing := true }, some ⟨1, 64, 64, []⟩⟩
    { freshEntry with processing := true } ⟨1, 64, 64, []⟩ [] true []
    rfl rfl rfl).1

/-- C5: every rejecting `processFrame` execution — short buffer, wrong type
byte, truncated payload, or decode failure — returns `false` and leaves the
entry's `lastTimestamp`, texture image and recorded dimensions unchanged;
the three header rejections touch nothing at all, and a decode failure only
clears the busy flag. -/
theorem reject_leaves_state (f64 : List ℕ → ℚ) (decode : List ℕ → Bool)
    (s : SourceState) (data : List ℕ) :
    (data.length < HEADER_SIZE → processFrame f64 decode s data = (false, s)) ∧
    (getUint8 data 0 ≠ 1 → processFrame f64 decode s data = (false, s)) ∧
    (data.length < HEADER_SIZE + getUint32le data 17 →
      processFrame f64 decode s data = (false, s)) ∧
    (¬ data.length < HEADER_SIZE → getUint8 data 0 = 1 →
      ¬ data.length < HEADER_SIZE + getUint32le data 17 →
      lastTs s < frameTimestamp f64 data → entryBusy s = false →
      decode ((data.drop HEADER_SIZE).take (getUint32le data 17)) = false →
      processFrame f64 decode s data =
        (false, ⟨some { s.entry.getD freshEntry with processing := false },
          none⟩)) := by
  refine ⟨?_, ?_, ?_, ?_⟩
  · intro h1
    simp [processFrame, processFrameStart, h1]
  · intro h2
    by_cases h1 : data.length < HEADER_SIZE <;>
      simp [processFrame, processFrameStart, h1, h2]
  · intro h3
    by_cases h1 : data.length < HEADER_SIZE
    · simp [processFrame, processFrameStart, h1]
    by_cases h2 : getUint8 data 0 = 1 <;>
      simp [processFrame, processFrameStart, h1, h2, h3]
  · intro h1 h2 h3 h4 h5 h6
    have hacc := processFrameStart_accepts f64 s data h1 h2 h3 h4 h5
    rcases hstart : processFrameStart f64 s data with ⟨out, s₁⟩
    rw [hstart] at hacc
    cases out with
    | rejected => exact absurd hacc (by simp)
    | started p =>
      obtain ⟨_, _, _, hs₁⟩ := processFrameStart_started f64 s data p s₁ hstart
      subst hs₁
      obtain ⟨hfst, _, _, _, hfail⟩ :=
        processFrameComplete_spec (decode p.jpegData)
          ⟨some { s.entry.getD freshEntry with processing := true }, some p⟩ p
          { s.entry.getD freshEntry with processing := true } rfl rfl
      have hjp : p.jpegData = (data.drop HEADER_SIZE).take (getUint32le data 17) := by
        injection hacc with hacc'
        exact congrArg PendingDecode.jpegData hacc'
      have hdec : decode p.jpegData = false := by rw [hjp]; exact h6
      unfold processFrame
      rw [hstart, Prod.ext_iff]
      exact ⟨hfst.trans hdec, (hfail hdec).trans rfl⟩

/-- Witness for C5: the four rejection shapes at concrete frames — a
2-byte buffer, a type-0 header, a truncated payload, and a failing decode
on an otherwise valid frame. -/
theorem reject_leaves_state_witness :
    processFrame (fun _ => 1) (fun _ => false) initialSource [] =
      (false, initialSource) ∧
    processFrame (fun _ => 1) (fun _ => false) initialSource
        (List.replicate 21 0) = (false, initialSource) ∧
    processFrame (fun _ => 1) (fun _ => false) initialSource
        (1 :: (List.replicate 16 0 ++ [1, 0, 0, 0])) = (false, initialSource) ∧
    processFrame (fun _ => 1) (fun _ => false) initialSource
        (1 :: List.replicate 20 0) =
      (false, ⟨some { freshEntry with processing := false }, none⟩) :=
  ⟨(reject_leaves_state (fun _ => 1) (fun _ => false) initialSource []).1
      (by decide),
   (reject_leaves_state (fun _ => 1) (fun _ => false) initialSource
      (List.replicate 21 0)).2.1 (by decide),
   (reject_leaves_state (fun _ => 1) (fun _ => false) initialSource
      (1 :: (List.replicate 16 0 ++ [1, 0, 0, 0]))).2.2.1 (by decide),
   (reject_leaves_state (fun _ => 1) (fun _ => false) initialSource
      (1 :: List.replicate 20 0)).2.2.2 (by decide) (by decide) (by decide)
      (by norm_num [lastTs, initialSource, freshEntry, frameTimestamp])
      rfl rfl⟩

/-- C6: on an unexpected close the transport schedules a reconnect after
`min(baseDelay * 2 ^ attempt, maxDelay)` and increments the attempt
counter; a successful open resets the counter to 0; with base 1000 ms and
max 30000 ms, four consecutive unexpected closes schedule 1000, 2000, 4000,
8000; every scheduled delay is capped at `maxDelay`; and an explicit
`close()` cancels the pending scheduled reconnect and, via the
intentional-close flag, prevents a new one from being scheduled. -/
theorem reconnect_backoff_policy (cfg : WSConfig) (s : WSState)
    (hauto : cfg.autoReconnect = true) :
    (s.intentionalClose = false →
      (onClose cfg s).2 =
        some (min (cfg.reconnectDelay * 2 ^ s.reconnectAttempt)
          cfg.maxReconnectDelay) ∧
      (onClose cfg s).1.reconnectAttempt = s.reconnectAttempt + 1 ∧
      (onClose cfg s).1.reconnectTimer =
        some (min (cfg.reconnectDelay * 2 ^ s.reconnectAttempt)
          cfg.maxReconnectDelay)) ∧
    (onOpen s).reconnectAttempt = 0 ∧
    (wsRun ⟨1000, 30000, true⟩ initialWSState
        [.unexpectedClose, .timerFire, .unexpectedClose, .timerFire,
         .unexpectedClose, .timerFire, .unexpectedClose]).2 =
      [1000, 2000, 4000, 8000] ∧
    (∀ d, (onClose cfg s).2 = some d → d ≤ cfg.maxReconnectDelay) ∧
    (wsUserClose s).reconnectTimer = none ∧
    (wsUserClose s).intentionalClose = true ∧
    (onClose cfg (wsUserClose s)).2 = none := by
  refine ⟨?_, rfl, ?_, ?_, rfl, rfl, ?_⟩
  · intro hic
    simp [onClose, hauto, hic]
  · norm_num [wsRun, wsStep, onClose, wsConnect, initialWSState, min_def]
  · intro d hd
    by_cases hic : s.intentionalClose
    · simp [onClose, hauto, hic] at hd
    · simp [onClose, hauto, hic] at hd
      rw [← hd]
      exact min_le_right _ _
  · simp [onClose, wsUserClose]

/-- Witness for C6: the simulated 4-close trace schedules exactly
1000, 2000, 4000, 8000. -/
theorem reconnect_backoff_policy_witness :
    (wsRun ⟨1000, 30000, true⟩ initialWSState
        [.unexpectedClose, .timerFire, .unexpectedClose, .timerFire,
         .unexpectedClose, .timerFire, .unexpectedClose]).2 =
      [1000, 2000, 4000, 8000] :=
  (reconnect_backoff_policy ⟨1000, 30000, true⟩ initialWSState rfl).2.2.1

end Portal
